import Mathlib

/-!
Shallow embedding of the PR-analysis core of this repository
(`src/pr-analyzer.js`): the Copilot classifier, the retrying API client
with rate-limit handling, the paginated pull-request fetcher, the
commit-count and action-minutes computations, and the weekly aggregation
with percentage finalization.  JS numbers that hold integers are modelled
as `Nat`/`Int`; `Math.floor`/`Math.ceil`/`Math.round` over fractional
values are modelled as `⌊·⌋`/`⌈·⌉`/`⌊· + 1/2⌋` on `ℚ`.
-/

namespace PRAnalyzer

/-! ### JS string helpers (`String.prototype.includes`, lower-casing) -/

/-- Prefix test on character lists. -/
def listIsPref : List Char → List Char → Bool
  | [], _ => true
  | _ :: _, [] => false
  | a :: as, b :: bs => a == b && listIsPref as bs

/-- Substring occurrence test on character lists: `listSubOf pat s` is true
iff `pat` occurs contiguously inside `s`. -/
def listSubOf : List Char → List Char → Bool
  | pat, [] => pat.isEmpty
  | pat, c :: rest => listIsPref pat (c :: rest) || listSubOf pat rest

/-- JS `s.includes(pat)`. -/
def jsIncludes (s pat : String) : Bool :=
  listSubOf pat.toList s.toList

/-- JS `s.toLowerCase()` (ASCII case folding, as `String.toLower` performs
character-wise). -/
def jsToLower (s : String) : String :=
  ⟨s.data.map Char.toLower⟩

/-! ### Data model for pull requests, reviews and commits -/

/-- A GitHub account object as the classifier sees it (`user.login`). -/
structure Account where
  login : String
deriving Repr, DecidableEq

/-- One element of a PR's review list (`review.user` may be null). -/
structure Review where
  user : Option Account
deriving Repr, DecidableEq

/-- One element of a PR's commit list.  `ccMessage`, `ccAuthorName`,
`ccCommitterName` model `commit.commit.message`, `commit.commit.author.name`
and `commit.commit.committer.name` (each possibly absent); `topAuthorLogin`
models `commit.author?.login`. -/
structure CommitRec where
  ccMessage : Option String
  ccAuthorName : Option String
  ccCommitterName : Option String
  topAuthorLogin : Option String
deriving Repr, DecidableEq

/-- The pull-request fields read by `detectCopilotCollaboration` and
`detectDependabotPR`: title, body, author and assignees (each possibly
null in the JSON). -/
structure PullReq where
  title : Option String
  body : Option String
  user : Option Account
  assignees : Option (List Account)
deriving Repr, DecidableEq

/-! ### Copilot collaboration classifier (`detectCopilotCollaboration`) -/

/-- Priority-3 per-review test: the reviewer login (required truthy,
lower-cased) equals `copilot-pull-request-reviewer[bot]`, or contains both
`copilot` and `review`, or equals `copilot`. -/
def copilotReviewTrigger (r : Review) : Bool :=
  match r.user with
  | none => false
  | some u =>
    if u.login == "" then false
    else
      let reviewerLogin := jsToLower u.login
      reviewerLogin == "copilot-pull-request-reviewer[bot]" ||
      (jsIncludes reviewerLogin "copilot" && jsIncludes reviewerLogin "review") ||
      reviewerLogin == "copilot"

/-- Priority-4 scan of the PR's commits: the first commit whose lower-cased
message mentions Copilot decides the category (`co-authored-by:` +
`copilot` ⇒ agent; `copilot` + a review keyword ⇒ review; bare `copilot`
⇒ agent); later commits are not scanned. -/
def commitScan : List CommitRec → Option String
  | [] => none
  | c :: rest =>
    let message := jsToLower (c.ccMessage.getD "")
    if jsIncludes message "co-authored-by:" && jsIncludes message "copilot" then
      some "agent"
    else if jsIncludes message "copilot" then
      if ["review", "feedback", "suggestion", "comment", "approve"].any
          (fun pat => jsIncludes message pat) then
        some "review"
      else
        some "agent"
    else commitScan rest

/-- Priority-1 guard: `pr.user && pr.user.login &&
pr.user.login.toLowerCase() === 'copilot'`. -/
def authorIsCopilot (pr : PullReq) : Bool :=
  match pr.user with
  | some u => u.login != "" && jsToLower u.login == "copilot"
  | none => false

/-- Priority-2 guard: some assignee has a truthy login whose lower-casing
is `copilot`. -/
def assigneeIsCopilot (pr : PullReq) : Bool :=
  match pr.assignees with
  | some l => l.any (fun a => a.login != "" && jsToLower a.login == "copilot")
  | none => false

/-- JS `detectCopilotCollaboration(pr)` with the lazily fetched review and
commit lists passed explicitly (the JS fetches them through
`getPRReviews` / `getPRCommits`, which degrade to `[]` on failure). -/
def detectCopilotCollaboration (pr : PullReq) (reviews : List Review)
    (commits : List CommitRec) : String :=
  let title := jsToLower (pr.title.getD "")
  let body := jsToLower (pr.body.getD "")
  -- Priority 1: author is Copilot
  if authorIsCopilot pr then "agent"
  -- Priority 2: an assignee is Copilot
  else if assigneeIsCopilot pr then "agent"
  -- Priority 3: a reviewer is a Copilot reviewer bot
  else if reviews.any copilotReviewTrigger then "review"
  else
    -- Priority 4: first Copilot-mentioning commit decides
    match commitScan commits with
    | some cat => cat
    | none =>
      -- Priority 5: title/body keyword fallback
      let copilotKeywords := ["copilot", "co-pilot", "github copilot",
        "ai-assisted", "ai assisted"]
      let reviewKeywords := ["review", "feedback", "suggestion", "comment",
        "approve"]
      let agentKeywords := ["generate", "create", "implement", "code",
        "develop", "write"]
      if copilotKeywords.any (fun k => jsIncludes title k || jsIncludes body k) then
        if reviewKeywords.any (fun p => jsIncludes title p || jsIncludes body p) then
          "review"
        else if agentKeywords.any (fun p => jsIncludes title p || jsIncludes body p) then
          "agent"
        else
          "agent"
      else
        "none"

/-! ### Retrying API client (`_makeApiRequestWithRetry`, `_shouldRetryError`,
`_handleRateLimit`) -/

/-- The pieces of an axios error response the retry logic reads: the HTTP
status and the parsed `x-ratelimit-remaining`, `x-ratelimit-reset` and
`retry-after` headers (absent header ↦ `none`). -/
structure ErrResp where
  status : Nat
  xRateLimitRemaining : Option Int
  xRateLimitReset : Option Int
  retryAfter : Option Int
deriving Repr, DecidableEq

/-- An error thrown by a request attempt: `resp = none` models a network
error with no HTTP response; `msg` is the error message. -/
structure ReqError where
  resp : Option ErrResp
  msg : String
deriving Repr, DecidableEq

/-- The outcome of one invocation of a request thunk. -/
inductive Outcome (α : Type) where
  | success (data : α)
  | failure (e : ReqError)
deriving Repr

/-- Observable behaviour of one `_makeApiRequestWithRetry` call: the value
returned or error thrown, how many times the thunk was invoked, and how
many times `_sleep` was called. -/
structure RetryTrace (α : Type) where
  result : Except ReqError α
  invocations : Nat
  sleeps : Nat
deriving Repr

/-- Predicate `_shouldRetryError`: network errors, 429, 5xx, 408 and 409 are
retryable; all other statuses are not. -/
def shouldRetryError (e : ReqError) : Bool :=
  match e.resp with
  | none => true
  | some r =>
    let status := r.status
    if status == 429 then true
    else if status ≥ 500 then true
    else if status == 408 then true
    else if status == 409 then true
    else if status ≥ 400 && status < 500 then false
    else false

/-- Function `_handleRateLimit`: wait time in milliseconds derived from the error's
headers, given `now` = `Math.floor(Date.now() / 1000)`.  `parseInt(h ||
'0')` on the reset header is modelled by `Option.getD 0`; the truthiness
test on `retry-after` by the `Option` match. -/
def handleRateLimit (e : ReqError) (now : Int) : Int :=
  let resetTimestamp := (e.resp.bind (fun r => r.xRateLimitReset)).getD 0
  if resetTimestamp > 0 then
    let waitTime := max 0 ((resetTimestamp - now) * 1000) + 1000
    min waitTime 300000
  else
    match e.resp.bind (fun r => r.retryAfter) with
    | some retryAfter => min (retryAfter * 1000) 300000
    | none => 60000

/-- The attempt loop of `_makeApiRequestWithRetry`, with the thunk's
behaviour given as `thunk : Nat → Outcome α` (outcome of the n-th
invocation).  `remaining` is `maxRetries - attempt`; `remaining = 0` is the
final attempt (`attempt === maxRetries`), after which the last error is
thrown.  Each non-final retryable failure sleeps once (the rate-limit and
backoff branches differ only in the slept duration, which involves
`Math.random` jitter and is not modelled). -/
def retryAux (thunk : Nat → Outcome α) : Nat → Nat → RetryTrace α
  | 0, attempt =>
    match thunk attempt with
    | .success d => ⟨.ok d, 1, 0⟩
    | .failure e => ⟨.error e, 1, 0⟩
  | remaining + 1, attempt =>
    match thunk attempt with
    | .success d => ⟨.ok d, 1, 0⟩
    | .failure e =>
      if shouldRetryError e then
        let rest := retryAux thunk remaining (attempt + 1)
        ⟨rest.result, rest.invocations + 1, rest.sleeps + 1⟩
      else ⟨.error e, 1, 0⟩

/-- Function `_makeApiRequestWithRetry(requestFn, context, maxRetries, useCache,
cacheKey)` with the cache contents passed as a lookup function: a cache hit
short-circuits with zero invocations and zero sleeps. -/
def makeApiRequestWithRetry (cache : String → Option α) (thunk : Nat → Outcome α)
    (maxRetries : Nat) (useCache : Bool) (cacheKey : Option String) :
    RetryTrace α :=
  match useCache, cacheKey with
  | true, some key =>
    match cache key with
    | some cached => ⟨.ok cached, 0, 0⟩
    | none => retryAux thunk maxRetries 0
  | _, _ => retryAux thunk maxRetries 0

/-! ### Paginated pull-request fetcher (`getRepositoryPullRequests`) -/

/-- The one pull-request field the pagination loop reads:
`new Date(pr.created_at)` in epoch milliseconds. -/
structure PullItem where
  createdAtMs : Int
deriving Repr, DecidableEq

/-- The terminal outcome of one page fetch (after `_makeApiRequestWithRetry`
has exhausted its retries): a decoded page, or a thrown error with its
optional HTTP status. -/
inductive PageResp where
  | page (items : List PullItem)
  | err (status : Option Nat)
deriving Repr, DecidableEq

/-- Function `getRepositoryPullRequests(repo, since)` with the server's successive
page responses given as a list (element `k` answers page `k+1`); `since` in
epoch milliseconds; `acc` is the `pulls` accumulator.  A 404 on any page
returns the empty list (discarding `acc`); any other error is re-thrown as
a `Failed to fetch pull requests` error.  An exhausted response list (the
server never stopping the loop) is modelled as returning the accumulator. -/
def getRepositoryPullRequests (since : Int) :
    List PageResp → List PullItem → Except String (List PullItem)
  | [], acc => .ok acc
  | .page items :: rest, acc =>
    if items.length == 0 then .ok acc
    else
      let filteredPRs := items.filter (fun pr => pr.createdAtMs ≥ since)
      let acc := acc ++ filteredPRs
      if items.length < 100 || filteredPRs.length < items.length then .ok acc
      else getRepositoryPullRequests since rest acc
  | .err status :: _, _ =>
    if status == some 404 then .ok []
    else .error "Failed to fetch pull requests"

/-! ### Commit counting (`analyzeCommitCounts`) -/

/-- Result record of `analyzeCommitCounts`. -/
structure CommitCounts where
  totalCommits : Nat
  userCommits : Nat
  copilotCommits : Nat
deriving Repr, DecidableEq

/-- Predicate `isCopilotCommit` of `analyzeCommitCounts`: co-authored-by
trailer naming Copilot, Copilot author or committer name, or a commit
message mentioning Copilot. -/
def isCopilotCommit (c : CommitRec) : Bool :=
  let author := c.ccAuthorName.getD ""
  let committer := c.ccCommitterName.getD ""
  let message := jsToLower (c.ccMessage.getD "")
  (jsIncludes message "co-authored-by:" && jsIncludes message "copilot") ||
  jsIncludes (jsToLower author) "copilot" ||
  jsIncludes (jsToLower committer) "copilot" ||
  jsIncludes message "copilot"

/-- Per-commit step of `analyzeCommitCounts`: a Copilot commit increments
`copilotCommits`; otherwise both arms of the owner test increment
`userCommits` (the owner comparison is computed but does not change the
outcome). -/
def commitCountStep (owner : String) (acc : CommitCounts) (c : CommitRec) :
    CommitCounts :=
  if isCopilotCommit c then
    { acc with copilotCommits := acc.copilotCommits + 1 }
  else
    let author := c.ccAuthorName.getD ""
    let commitAuthor :=
      match c.topAuthorLogin with
      | some l => if l == "" then author else l
      | none => author
    if commitAuthor == owner || jsIncludes author owner then
      { acc with userCommits := acc.userCommits + 1 }
    else
      { acc with userCommits := acc.userCommits + 1 }

/-- Function `analyzeCommitCounts(commits)` for analyzer owner `owner`. -/
def analyzeCommitCounts (owner : String) (commits : List CommitRec) :
    CommitCounts :=
  commits.foldl (commitCountStep owner) ⟨commits.length, 0, 0⟩

/-! ### Weekly aggregation (`analyzePullRequests`) -/

/-- The PR counters of one in-progress week bucket of `weeklyData`. -/
structure WeekCounts where
  totalPRs : Nat
  copilotAssistedPRs : Nat
  copilotReviewPRs : Nat
  copilotAgentPRs : Nat
deriving Repr, DecidableEq

/-- The empty bucket created on first use of a week key. -/
def emptyWeek : WeekCounts := ⟨0, 0, 0, 0⟩

/-- Folding one analyzed PR with classification `copilotType` into its week
bucket: `totalPRs` always increments; `review`/`agent` additionally
increment their category counter and `copilotAssistedPRs`; any other
classification (`none`) touches no category counter. -/
def recordPR (w : WeekCounts) (copilotType : String) : WeekCounts :=
  let w := { w with totalPRs := w.totalPRs + 1 }
  if copilotType == "review" then
    { w with copilotReviewPRs := w.copilotReviewPRs + 1,
             copilotAssistedPRs := w.copilotAssistedPRs + 1 }
  else if copilotType == "agent" then
    { w with copilotAgentPRs := w.copilotAgentPRs + 1,
             copilotAssistedPRs := w.copilotAssistedPRs + 1 }
  else w

/-- A week bucket built from the classifications of the PRs that fell into
that week, in processing order. -/
def buildWeekCounts (types : List String) : WeekCounts :=
  types.foldl recordPR emptyWeek

/-- JS `Math.round` (half away from zero towards +∞) on `ℚ`. -/
def jsRound (q : ℚ) : ℤ := ⌊q + 1 / 2⌋

/-- JS `Math.round(x * 100) / 100`: rounding to two decimal places. -/
def roundTwo (q : ℚ) : ℚ := (jsRound (q * 100) : ℚ) / 100

/-- The three percentage fields of a finalized week bucket. -/
structure WeekPercentages where
  copilotPercentage : ℚ
  copilotReviewPercentage : ℚ
  copilotAgentPercentage : ℚ
deriving Repr, DecidableEq

/-- The percentage finalization pass of `analyzePullRequests`, as the code
writes it: `count / totalPRs * 100` when `totalPRs > 0` (else 0), then
`Math.round(p * 100) / 100`. -/
def finalizeWeek (w : WeekCounts) : WeekPercentages :=
  let copilotPercentage : ℚ :=
    if w.totalPRs > 0 then (w.copilotAssistedPRs : ℚ) / w.totalPRs * 100 else 0
  let copilotReviewPercentage : ℚ :=
    if w.totalPRs > 0 then (w.copilotReviewPRs : ℚ) / w.totalPRs * 100 else 0
  let copilotAgentPercentage : ℚ :=
    if w.totalPRs > 0 then (w.copilotAgentPRs : ℚ) / w.totalPRs * 100 else 0
  ⟨roundTwo copilotPercentage, roundTwo copilotReviewPercentage,
    roundTwo copilotAgentPercentage⟩

/-- Modelled from the spec: "percentages = `100 * categoryCount / totalPRs`
(0 when `totalPRs` is 0), rounded to two decimal places". -/
def specPercentage (count total : Nat) : ℚ :=
  if total = 0 then 0 else roundTwo (100 * (count : ℚ) / total)

/-! ### Calendar arithmetic and the week key (`getWeekKey`) -/

/-- Gregorian leap-year test. -/
def isLeap (y : Nat) : Bool :=
  (y % 4 == 0 && y % 100 != 0) || y % 400 == 0

/-- Days in the months strictly before month `m` (1-based). -/
def daysBeforeMonth (leap : Bool) (m : Nat) : Nat :=
  let feb := if leap then 29 else 28
  match m with
  | 1 => 0
  | 2 => 31
  | 3 => 31 + feb
  | 4 => 62 + feb
  | 5 => 92 + feb
  | 6 => 123 + feb
  | 7 => 153 + feb
  | 8 => 184 + feb
  | 9 => 215 + feb
  | 10 => 245 + feb
  | 11 => 276 + feb
  | _ => 306 + feb

/-- Ordinal day (0-based) of the year of the civil date `(y, m, d)`. -/
def dayOfYearIndex (y m d : Nat) : Nat :=
  daysBeforeMonth (isLeap y) m + (d - 1)

/-- Days in all proleptic-Gregorian years strictly before year `y`
(so `daysBeforeYear y` is the day number of 1 January of year `y`,
counting 0001-01-01 as day 0). -/
def daysBeforeYear (y : Nat) : Nat :=
  365 * (y - 1) + ((y - 1) / 4 - (y - 1) / 100) + (y - 1) / 400

/-- Day number of the civil date `(y, m, d)`, with 0001-01-01 (a Monday) as
day 0. -/
def rataDie (y m d : Nat) : Nat :=
  daysBeforeYear y + dayOfYearIndex y m d

/-- A JS `Date` instant, split into its UTC civil components: calendar
date plus milliseconds elapsed within the day. -/
structure JSDate where
  year : Nat
  month : Nat
  day : Nat
  msInDay : Nat
deriving Repr, DecidableEq

/-- The instant in epoch-style milliseconds, measured from 0001-01-01. -/
def JSDate.toMs (dt : JSDate) : Nat :=
  rataDie dt.year dt.month dt.day * 86400000 + dt.msInDay

/-- JS `Date.prototype.getDay` (Sunday = 0) of 1 January of year `y`:
day 0 of the calendar was a Monday. -/
def jan1Weekday (y : Nat) : Nat :=
  (daysBeforeYear y + 1) % 7

/-- JS `String(n).padStart(2, '0')`. -/
def padTwo (n : Nat) : String :=
  if n < 10 then "0" ++ toString n else toString n

/-- Function `getWeekKey(date)`: year, day count since 1 January (floored millisecond
difference), then `Math.ceil((daysSinceStart + startOfYear.getDay() + 1) / 7)`,
formatted as `YYYY-W##`. -/
def getWeekKey (dt : JSDate) : String :=
  let year := dt.year
  let daysSinceStart := (dt.toMs - rataDie year 1 1 * 86400000) / 86400000
  let weekNumber :=
    (⌈((daysSinceStart + jan1Weekday year + 1 : Nat) : ℚ) / 7⌉).toNat
  s!"{year}-W{padTwo weekNumber}"

/-- The closed form of the code's week number for date `(y, m, d)`:
`⌈(dayOfYearIndex + jan1Weekday + 1) / 7⌉` as Nat arithmetic. -/
def codeWeekNumber (y m d : Nat) : Nat :=
  (dayOfYearIndex y m d + jan1Weekday y + 7) / 7

/-- Modelled from the spec: "ISO year-week" — the ISO-8601 week number of
`(y, m, d)`: weeks run Monday–Sunday, and week 1 of a year is the week
containing that year's first Thursday; the week number is 1 plus the number
of whole weeks between that Thursday's week and week 1. -/
def isoWeekNumberSpec (y m d : Nat) : Nat :=
  let rd := rataDie y m d
  let mondayWeekday := rd % 7
  let thursdayRd := rd + 3 - mondayWeekday
  let isoYear :=
    if thursdayRd ≥ daysBeforeYear (y + 1) then y + 1
    else if thursdayRd ≥ daysBeforeYear y then y
    else y - 1
  (thursdayRd - daysBeforeYear isoYear) / 7 + 1

/-! ### Workflow-run minutes (`calculateActionMinutes`) -/

/-- A workflow-run job as `calculateActionMinutes` reads it: optional
`started_at` / `completed_at` instants in epoch milliseconds. -/
structure WorkflowJob where
  startedAtMs : Option Int
  completedAtMs : Option Int
deriving Repr, DecidableEq

/-- The contribution of one job: `Math.ceil(durationMs / 60000)` when both
timestamps are present, nothing otherwise. -/
def jobMinutes (job : WorkflowJob) : Int :=
  match job.startedAtMs, job.completedAtMs with
  | some s, some e => ⌈((e - s : Int) : ℚ) / (1000 * 60)⌉
  | _, _ => 0

/-- Function `calculateActionMinutes(jobs)`: sum of the rounded-up whole-minute
durations of the jobs that carry both timestamps. -/
def calculateActionMinutes (jobs : List WorkflowJob) : Int :=
  jobs.foldl
    (fun totalMinutes job =>
      match job.startedAtMs, job.completedAtMs with
      | some s, some e => totalMinutes + ⌈((e - s : Int) : ℚ) / (1000 * 60)⌉
      | _, _ => totalMinutes)
    0

/-! ### Helper lemmas -/

theorem jsRound_zero : jsRound 0 = 0 := by
  have h : (0 : ℚ) + 1 / 2 = 1 / 2 := by norm_num
  rw [jsRound, h, Int.floor_eq_iff]
  norm_num

theorem roundTwo_zero : roundTwo 0 = 0 := by
  have h : (0 : ℚ) * 100 = 0 := by norm_num
  rw [roundTwo, h, jsRound_zero]
  norm_num

theorem recordPR_totalPRs (w : WeekCounts) (t : String) :
    (recordPR w t).totalPRs = w.totalPRs + 1 := by
  rw [recordPR]
  split <;> first | rfl | split <;> rfl

theorem recordPR_reviewPRs (w : WeekCounts) (t : String) :
    (recordPR w t).copilotReviewPRs
      = w.copilotReviewPRs + (if t = "review" then 1 else 0) := by
  rw [recordPR]
  by_cases hr : t = "review" <;> by_cases ha : t = "agent" <;>
    simp [hr, ha]

theorem recordPR_agentPRs (w : WeekCounts) (t : String) :
    (recordPR w t).copilotAgentPRs
      = w.copilotAgentPRs + (if t = "agent" then 1 else 0) := by
  rw [recordPR]
  by_cases hr : t = "review" <;> by_cases ha : t = "agent" <;>
    simp_all

theorem recordPR_assistedPRs (w : WeekCounts) (t : String) :
    (recordPR w t).copilotAssistedPRs
      = w.copilotAssistedPRs
        + ((if t = "review" then 1 else 0) + (if t = "agent" then 1 else 0)) := by
  rw [recordPR]
  by_cases hr : t = "review" <;> by_cases ha : t = "agent" <;>
    simp_all

theorem recordPR_fold (types : List String) (init : WeekCounts) :
    (types.foldl recordPR init).totalPRs = init.totalPRs + types.length ∧
    (types.foldl recordPR init).copilotReviewPRs
      = init.copilotReviewPRs + types.countP (fun t => t == "review") ∧
    (types.foldl recordPR init).copilotAgentPRs
      = init.copilotAgentPRs + types.countP (fun t => t == "agent") ∧
    (types.foldl recordPR init).copilotAssistedPRs
      = init.copilotAssistedPRs + types.countP (fun t => t == "review")
        + types.countP (fun t => t == "agent") := by
  induction types generalizing init with
  | nil => simp
  | cons t rest ih =>
    obtain ⟨ih1, ih2, ih3, ih4⟩ := ih (recordPR init t)
    simp only [List.foldl_cons, List.countP_cons, List.length_cons]
    rw [ih1, ih2, ih3, ih4, recordPR_totalPRs, recordPR_reviewPRs,
      recordPR_agentPRs, recordPR_assistedPRs]
    by_cases hr : t = "review" <;> by_cases ha : t = "agent" <;>
      simp [hr, ha] <;> omega

theorem commitCountStep_eq (owner : String) (acc : CommitCounts)
    (c : CommitRec) :
    commitCountStep owner acc c =
      if isCopilotCommit c then
        { acc with copilotCommits := acc.copilotCommits + 1 }
      else
        { acc with userCommits := acc.userCommits + 1 } := by
  rw [commitCountStep]
  split
  · rfl
  · dsimp only
    split <;> rfl

theorem commitCountStep_totalCommits (owner : String) (acc : CommitCounts)
    (c : CommitRec) :
    (commitCountStep owner acc c).totalCommits = acc.totalCommits := by
  rw [commitCountStep_eq]
  split <;> rfl

theorem commitCountStep_copilotCommits (owner : String) (acc : CommitCounts)
    (c : CommitRec) :
    (commitCountStep owner acc c).copilotCommits
      = acc.copilotCommits + (if isCopilotCommit c then 1 else 0) := by
  rw [commitCountStep_eq]
  by_cases hc : isCopilotCommit c <;> simp [hc]

theorem commitCountStep_userCommits (owner : String) (acc : CommitCounts)
    (c : CommitRec) :
    (commitCountStep owner acc c).userCommits
      = acc.userCommits + (if isCopilotCommit c then 0 else 1) := by
  rw [commitCountStep_eq]
  by_cases hc : isCopilotCommit c <;> simp [hc]

theorem commitCountStep_fold (owner : String) (commits : List CommitRec)
    (init : CommitCounts) :
    (commits.foldl (commitCountStep owner) init).totalCommits
      = init.totalCommits ∧
    (commits.foldl (commitCountStep owner) init).copilotCommits
      = init.copilotCommits + commits.countP (fun c => isCopilotCommit c) ∧
    (commits.foldl (commitCountStep owner) init).userCommits
      = init.userCommits + commits.countP (fun c => !isCopilotCommit c) := by
  induction commits generalizing init with
  | nil => simp
  | cons c rest ih =>
    obtain ⟨ih1, ih2, ih3⟩ := ih (commitCountStep owner init c)
    simp only [List.foldl_cons, List.countP_cons]
    rw [ih1, ih2, ih3, commitCountStep_totalCommits,
      commitCountStep_copilotCommits, commitCountStep_userCommits]
    by_cases hc : isCopilotCommit c <;> simp [hc] <;> omega

theorem jobMinutes_fold (jobs : List WorkflowJob) (init : Int) :
    (jobs.foldl
      (fun totalMinutes job =>
        match job.startedAtMs, job.completedAtMs with
        | some s, some e => totalMinutes + ⌈((e - s : Int) : ℚ) / (1000 * 60)⌉
        | _, _ => totalMinutes)
      init) = init + (jobs.map jobMinutes).sum := by
  induction jobs generalizing init with
  | nil => simp
  | cons j rest ih =>
    simp only [List.foldl_cons, List.map_cons, List.sum_cons]
    rw [ih]
    cases hs : j.startedAtMs <;> cases he : j.completedAtMs <;>
      (simp [jobMinutes, hs, he]) <;> ring

theorem ceil_q_div (num den target : Int) (hden : (0 : ℚ) < den)
    (h1 : (target : ℚ) * den - den < num) (h2 : (num : ℚ) ≤ target * den) :
    ⌈(num : ℚ) / (den : ℚ)⌉ = target := by
  rw [Int.ceil_eq_iff]
  constructor
  · rw [lt_div_iff₀ hden]
    nlinarith
  · rw [div_le_iff₀ hden]
    exact h2

theorem ceil_nat_div_seven (x : ℕ) :
    ⌈((x : ℚ)) / 7⌉ = (((x + 6) / 7 : ℕ) : ℤ) := by
  set q : ℕ := (x + 6) / 7 with hq
  have h1 : 7 * q ≤ x + 6 := by omega
  have h2 : x ≤ 7 * q := by omega
  have hcast : (((q : ℤ)) : ℚ) = (q : ℚ) := by push_cast; ring
  rw [Int.ceil_eq_iff]
  constructor
  · rw [lt_div_iff₀ (by norm_num : (0 : ℚ) < 7), hcast]
    have h1q : (7 : ℚ) * (q : ℚ) ≤ (x : ℚ) + 6 := by exact_mod_cast h1
    linarith
  · rw [div_le_iff₀ (by norm_num : (0 : ℚ) < 7), hcast]
    have h2q : (x : ℚ) ≤ 7 * (q : ℚ) := by exact_mod_cast h2
    linarith

theorem getWeekKey_closed (dt : JSDate) (h : dt.msInDay < 86400000) :
    getWeekKey dt
      = s!"{dt.year}-W{padTwo (codeWeekNumber dt.year dt.month dt.day)}" := by
  have hr : rataDie dt.year 1 1 = daysBeforeYear dt.year := by
    simp [rataDie, dayOfYearIndex, daysBeforeMonth]
  have hday : (dt.toMs - rataDie dt.year 1 1 * 86400000) / 86400000
      = dayOfYearIndex dt.year dt.month dt.day := by
    rw [JSDate.toMs, hr, rataDie]
    omega
  have harith : dayOfYearIndex dt.year dt.month dt.day + jan1Weekday dt.year + 1 + 6
      = dayOfYearIndex dt.year dt.month dt.day + jan1Weekday dt.year + 7 := by
    omega
  simp only [getWeekKey, hday, ceil_nat_div_seven, Int.toNat_natCast, harith,
    codeWeekNumber]

theorem getRepositoryPullRequests_err (since : Int) (st : Option Nat)
    (rest : List PageResp) (acc : List PullItem) :
    getRepositoryPullRequests since (.err st :: rest) acc
      = if st == some 404 then .ok [] else .error "Failed to fetch pull requests" :=
  rfl

theorem getRepositoryPullRequests_advance (since : Int)
    (pre tail : List PageResp) (acc : List PullItem)
    (hfull : ∀ p ∈ pre, ∃ items, p = .page items ∧ items.length = 100 ∧
      ∀ pr ∈ items, pr.createdAtMs ≥ since) :
    ∃ acc2, getRepositoryPullRequests since (pre ++ tail) acc
      = getRepositoryPullRequests since tail acc2 := by
  induction pre generalizing acc with
  | nil => exact ⟨acc, rfl⟩
  | cons p pre ih =>
    obtain ⟨items, hp, hlen, hsince⟩ := hfull p (List.mem_cons_self _ _)
    subst hp
    have hfilter : items.filter (fun pr => decide (pr.createdAtMs ≥ since))
        = items :=
      List.filter_eq_self.mpr (fun pr hpr => by simpa using hsince pr hpr)
    simp only [List.cons_append, getRepositoryPullRequests, hfilter, hlen]
    norm_num
    exact ih _ (fun q hq => hfull q (List.mem_cons_of_mem _ hq))

theorem commitScan_none (commits : List CommitRec)
    (h : ∀ c ∈ commits,
      jsIncludes (jsToLower (c.ccMessage.getD "")) "copilot" = false) :
    commitScan commits = none := by
  induction commits with
  | nil => rfl
  | cons c rest ih =>
    have hc := h c (List.mem_cons_self _ _)
    simp only [commitScan, hc, Bool.and_false, Bool.false_eq_true, if_false]
    exact ih (fun d hd => h d (List.mem_cons_of_mem _ hd))

theorem countP_review_agent_le (l : List String) :
    l.countP (fun t => t == "review") + l.countP (fun t => t == "agent")
      ≤ l.length := by
  induction l with
  | nil => simp
  | cons t rest ih =>
    simp only [List.countP_cons, List.length_cons]
    by_cases hr : t = "review" <;> by_cases ha : t = "agent" <;>
      simp_all <;> omega

/-! ### The claims -/

/-- Claim C1: for every pull request whose author login case-insensitively
equals `copilot`, `detectCopilotCollaboration` returns `agent`, regardless
of the PR's assignees, reviewers, commits, title, or body content. -/
theorem c1_author_copilot_agent (pr : PullReq) (reviews : List Review)
    (commits : List CommitRec) (u : Account)
    (huser : pr.user = some u) (hlogin : jsToLower u.login = "copilot") :
    detectCopilotCollaboration pr reviews commits = "agent" := by
  have hne : (u.login == "") = false := by
    rcases hu : u.login with ⟨l⟩
    rcases l with _ | _
    · rw [hu] at hlogin
      exact absurd hlogin (by decide)
    · rfl
  have hauth : authorIsCopilot pr = true := by
    simp only [authorIsCopilot, huser, bne, hne, Bool.not_false, Bool.true_and,
      hlogin, beq_self_eq_true]
  simp [detectCopilotCollaboration, hauth]

/-- Witness for C1 at a concrete PR authored by `Copilot` with unrelated
assignees, reviewers, commits, title and body. -/
theorem c1_witness :
    detectCopilotCollaboration
      ⟨some "Fix login bug", some "regular body", some ⟨"Copilot"⟩,
        some [⟨"bob"⟩]⟩
      [⟨some ⟨"human-reviewer"⟩⟩]
      [⟨some "ordinary commit", some "Bob", some "Bob", some "bob"⟩]
      = "agent" :=
  c1_author_copilot_agent _ _ _ ⟨"Copilot"⟩ rfl (by decide)

/-- Claim C2: when neither author nor any assignee is the bot, a review
whose user login (lower-cased) equals `copilot-pull-request-reviewer[bot]`,
or contains both `copilot` and `review`, or equals `copilot`, makes
`detectCopilotCollaboration` return `review`; whereas reviewer logins that
merely contain `copilot` without a review-related substring (and are not
the bare bot name) do not trigger `review`, and with no commit or
title/body signal the classification is `none`. -/
theorem c2_reviewer_classification :
    (∀ (pr : PullReq) (reviews : List Review) (commits : List CommitRec),
      authorIsCopilot pr = false → assigneeIsCopilot pr = false →
      (∃ r ∈ reviews, copilotReviewTrigger r = true) →
      detectCopilotCollaboration pr reviews commits = "review") ∧
    (∀ (pr : PullReq) (reviews : List Review) (commits : List CommitRec),
      authorIsCopilot pr = false → assigneeIsCopilot pr = false →
      (∀ r ∈ reviews, ∀ u : Account, r.user = some u →
        jsIncludes (jsToLower u.login) "copilot" = true ∧
        jsIncludes (jsToLower u.login) "review" = false ∧
        jsToLower u.login ≠ "copilot") →
      (∀ c ∈ commits,
        jsIncludes (jsToLower (c.ccMessage.getD "")) "copilot" = false) →
      (∀ kw ∈ ["copilot", "co-pilot", "github copilot", "ai-assisted",
          "ai assisted"],
        jsIncludes (jsToLower (pr.title.getD "")) kw = false ∧
        jsIncludes (jsToLower (pr.body.getD "")) kw = false) →
      detectCopilotCollaboration pr reviews commits = "none") := by
  constructor
  · intro pr reviews commits hauth hassign hex
    have hany : reviews.any copilotReviewTrigger = true :=
      List.any_eq_true.mpr hex
    simp [detectCopilotCollaboration, hauth, hassign, hany]
  · intro pr reviews commits hauth hassign hrev hcomm hkw
    have hany : reviews.any copilotReviewTrigger = false := by
      rw [List.any_eq_false]
      intro r hr
      rw [Bool.not_eq_true]
      rcases hu : r.user with _ | u
      · simp [copilotReviewTrigger, hu]
      · obtain ⟨hc, hnr, hne⟩ := hrev r hr u hu
        by_cases hemp : u.login = ""
        · simp [copilotReviewTrigger, hu, hemp]
        · have h1 : (jsToLower u.login
              == "copilot-pull-request-reviewer[bot]") = false := by
            rw [beq_eq_false_iff_ne]
            intro heq
            rw [heq] at hnr
            exact absurd hnr (by decide)
          have h3 : (jsToLower u.login == "copilot") = false :=
            beq_eq_false_iff_ne.mpr hne
          simp [copilotReviewTrigger, hu, hemp, h1, h3, hnr]
    have hscan := commitScan_none commits hcomm
    have hkw1 := hkw "copilot" (by simp)
    have hkw2 := hkw "co-pilot" (by simp)
    have hkw3 := hkw "github copilot" (by simp)
    have hkw4 := hkw "ai-assisted" (by simp)
    have hkw5 := hkw "ai assisted" (by simp)
    simp [detectCopilotCollaboration, hauth, hassign, hany, hscan,
      hkw1.1, hkw1.2, hkw2.1, hkw2.2, hkw3.1, hkw3.2, hkw4.1, hkw4.2,
      hkw5.1, hkw5.2]

/-- Witness for C2: reviewer `copilot-code-reviewer` yields `review`;
reviewer `copilot-assistant` with no other signal yields `none`. -/
theorem c2_witness :
    detectCopilotCollaboration ⟨none, none, some ⟨"alice"⟩, none⟩
      [⟨some ⟨"copilot-code-reviewer"⟩⟩] [] = "review" ∧
    detectCopilotCollaboration ⟨none, none, some ⟨"alice"⟩, none⟩
      [⟨some ⟨"copilot-assistant"⟩⟩] [] = "none" := by
  constructor
  · exact c2_reviewer_classification.1 _ _ _ (by decide) (by decide)
      ⟨⟨some ⟨"copilot-code-reviewer"⟩⟩, by simp, by decide⟩
  · refine c2_reviewer_classification.2 _ _ _ (by decide) (by decide) ?_ ?_ ?_
    · intro r hr u hu
      simp at hr
      subst hr
      simp at hu
      subst hu
      exact ⟨by decide, by decide, by decide⟩
    · intro c hc
      simp at hc
    · intro kw hkw
      fin_cases hkw <;> exact ⟨by decide, by decide⟩

/-- Claim C3: a request thunk that fails with HTTP 500 on every invocation,
run through `_makeApiRequestWithRetry` with `maxRetries = 3` (and no cached
value), is invoked exactly 4 times, sleeps exactly 3 times, and the last
error is raised to the caller. -/
theorem c3_retry_exhaustion {α : Type} (cache : String → Option α)
    (key : String) (thunk : Nat → Outcome α) (e : Nat → ReqError)
    (hcache : cache key = none)
    (hfail : ∀ n, thunk n = .failure (e n))
    (h500 : ∀ n, ∃ rem reset ra, (e n).resp = some ⟨500, rem, reset, ra⟩) :
    makeApiRequestWithRetry cache thunk 3 true (some key)
      = ⟨.error (e 3), 4, 3⟩ := by
  have hretry : ∀ n, shouldRetryError (e n) = true := by
    intro n
    obtain ⟨rem, reset, ra, hres⟩ := h500 n
    simp [shouldRetryError, hres]
  simp only [makeApiRequestWithRetry, hcache]
  simp [retryAux, hfail 0, hfail 1, hfail 2, hfail 3,
    hretry 0, hretry 1, hretry 2]

/-- Witness for C3: a concrete always-500 thunk with distinguishable error
messages per attempt. -/
theorem c3_witness :
    makeApiRequestWithRetry (fun _ => (none : Option Nat))
      (fun n => .failure ⟨some ⟨500, none, none, none⟩, toString n⟩)
      3 true (some "pulls_repo_1")
      = ⟨.error ⟨some ⟨500, none, none, none⟩, "3"⟩, 4, 3⟩ :=
  c3_retry_exhaustion (fun _ => none) "pulls_repo_1" _
    (fun n => ⟨some ⟨500, none, none, none⟩, toString n⟩)
    rfl (fun _ => rfl) (fun _ => ⟨none, none, none, rfl⟩)

/-- Claim C4: `_handleRateLimit` waits
`min(max(0, (reset − now) · 1000) + 1000, 300000)` ms when a positive
reset header is present; else `min(retryAfter · 1000, 300000)` ms when a
retry-after header is present; else exactly 60000 ms.  Consequently a
reset 60 s in the future waits strictly between 50000 and 70000 ms, a
reset 600 s out waits exactly 300000 ms, and `retry-after: 30` waits
exactly 30000 ms. -/
theorem c4_rate_limit_wait :
    (∀ (e : ReqError) (now reset : Int),
      (e.resp.bind (fun r => r.xRateLimitReset)).getD 0 = reset → 0 < reset →
      handleRateLimit e now
        = min (max 0 ((reset - now) * 1000) + 1000) 300000) ∧
    (∀ (e : ReqError) (now ra : Int),
      (e.resp.bind (fun r => r.xRateLimitReset)).getD 0 ≤ 0 →
      e.resp.bind (fun r => r.retryAfter) = some ra →
      handleRateLimit e now = min (ra * 1000) 300000) ∧
    (∀ (e : ReqError) (now : Int),
      (e.resp.bind (fun r => r.xRateLimitReset)).getD 0 ≤ 0 →
      e.resp.bind (fun r => r.retryAfter) = none →
      handleRateLimit e now = 60000) ∧
    (∀ (e : ReqError) (now reset : Int), 0 ≤ now →
      e.resp.bind (fun r => r.xRateLimitReset) = some reset →
      reset = now + 60 →
      50000 < handleRateLimit e now ∧ handleRateLimit e now < 70000) ∧
    (∀ (e : ReqError) (now reset : Int), 0 ≤ now →
      e.resp.bind (fun r => r.xRateLimitReset) = some reset →
      reset = now + 600 →
      handleRateLimit e now = 300000) ∧
    (∀ (e : ReqError) (now : Int),
      (e.resp.bind (fun r => r.xRateLimitReset)).getD 0 ≤ 0 →
      e.resp.bind (fun r => r.retryAfter) = some 30 →
      handleRateLimit e now = 30000) := by
  refine ⟨?_, ?_, ?_, ?_, ?_, ?_⟩
  · intro e now reset hres hpos
    simp only [handleRateLimit, hres, hpos, if_pos]
  · intro e now ra hres hra
    simp only [handleRateLimit, hra]
    rw [if_neg (by omega)]
  · intro e now hres hra
    simp only [handleRateLimit, hra]
    rw [if_neg (by omega)]
  · intro e now reset hnow hres hval
    subst hval
    simp only [handleRateLimit, hres, Option.getD_some]
    rw [if_pos (by omega)]
    constructor <;> rw [min_def] <;> split_ifs <;> omega
  · intro e now reset hnow hres hval
    subst hval
    simp only [handleRateLimit, hres, Option.getD_some]
    rw [if_pos (by omega)]
    rw [min_def, max_def]
    split_ifs <;> omega
  · intro e now hres hra
    simp only [handleRateLimit, hra]
    rw [if_neg (by omega)]
    decide

/-- Witness for C4 at concrete header values (now = 1000 s). -/
theorem c4_witness :
    handleRateLimit ⟨some ⟨429, some 0, some 1060, none⟩, "rate limited"⟩ 1000
      = 61000 ∧
    50000 < handleRateLimit ⟨some ⟨429, some 0, some 1060, none⟩, ""⟩ 1000 ∧
    handleRateLimit ⟨some ⟨429, some 0, some 1600, none⟩, ""⟩ 1000 = 300000 ∧
    handleRateLimit ⟨some ⟨429, some 0, none, some 30⟩, ""⟩ 1000 = 30000 ∧
    handleRateLimit ⟨some ⟨429, some 0, none, none⟩, ""⟩ 1000 = 60000 := by
  refine ⟨?_, ?_, ?_, ?_, ?_⟩
  · rw [c4_rate_limit_wait.1
      ⟨some ⟨429, some 0, some 1060, none⟩, "rate limited"⟩ 1000 1060 rfl
      (by omega)]
    decide
  · exact (c4_rate_limit_wait.2.2.2.1 ⟨some ⟨429, some 0, some 1060, none⟩, ""⟩
      1000 1060 (by omega) rfl rfl).1
  · exact c4_rate_limit_wait.2.2.2.2.1 ⟨some ⟨429, some 0, some 1600, none⟩, ""⟩
      1000 1600 (by omega) rfl rfl
  · exact c4_rate_limit_wait.2.2.2.2.2 ⟨some ⟨429, some 0, none, some 30⟩, ""⟩
      1000 (by simp) rfl
  · exact c4_rate_limit_wait.2.2.1 ⟨some ⟨429, some 0, none, none⟩, ""⟩
      1000 (by simp) rfl

/-- Claim C5: in every week bucket built by the aggregation,
`copilotAssistedPRs = copilotReviewPRs + copilotAgentPRs` and
`copilotAssistedPRs ≤ totalPRs`; PRs classified `none` are counted in
`totalPRs` (which equals the number of PRs folded in) but in neither
category count (the category counters count exactly the `review` and
`agent` classifications). -/
theorem c5_week_bucket_invariant (types : List String) :
    (buildWeekCounts types).copilotAssistedPRs
      = (buildWeekCounts types).copilotReviewPRs
        + (buildWeekCounts types).copilotAgentPRs ∧
    (buildWeekCounts types).copilotAssistedPRs
      ≤ (buildWeekCounts types).totalPRs ∧
    (buildWeekCounts types).totalPRs = types.length ∧
    (buildWeekCounts types).copilotReviewPRs
      = types.countP (fun t => t == "review") ∧
    (buildWeekCounts types).copilotAgentPRs
      = types.countP (fun t => t == "agent") := by
  obtain ⟨h1, h2, h3, h4⟩ := recordPR_fold types emptyWeek
  have hle := countP_review_agent_le types
  rw [buildWeekCounts]
  simp only [emptyWeek] at h1 h2 h3 h4
  refine ⟨?_, ?_, ?_, ?_, ?_⟩ <;>
    simp only [emptyWeek, h1, h2, h3, h4] <;> omega

/-- Claim C6 counterexample: `getWeekKey` does not compute the ISO week.
On 2026-01-04 (a Sunday, which ISO-8601 places in week 1 of 2026) the code
produces `2026-W02` while the ISO week number is 1, so the produced key
differs from the ISO key. -/
theorem c6_counterexample :
    getWeekKey ⟨2026, 1, 4, 0⟩ = "2026-W02" ∧
    isoWeekNumberSpec 2026 1 4 = 1 ∧
    getWeekKey ⟨2026, 1, 4, 0⟩
      ≠ s!"2026-W{padTwo (isoWeekNumberSpec 2026 1 4)}" := by
  have h := getWeekKey_closed ⟨2026, 1, 4, 0⟩ (by norm_num)
  refine ⟨?_, by decide, ?_⟩
  · rw [h]
    decide
  · rw [h]
    decide

/-- Claim C6 (amended): for every date (with a valid millisecond-of-day
component), the week-bucket key returned by `getWeekKey` has the form
`YYYY-W##` where the week number is
`⌈(dayOfYearIndex + weekday of 1 January (Sunday = 0) + 1) / 7⌉` — not the
ISO week — computed from the UTC calendar day count, 1-indexed, and padded
to two digits. -/
theorem c6_week_key_formula (dt : JSDate) (h : dt.msInDay < 86400000) :
    getWeekKey dt
      = s!"{dt.year}-W{padTwo (codeWeekNumber dt.year dt.month dt.day)}" ∧
    1 ≤ codeWeekNumber dt.year dt.month dt.day := by
  refine ⟨getWeekKey_closed dt h, ?_⟩
  rw [codeWeekNumber]
  omega

/-- Witness for C6 at the concrete date 2027-03-15, 00:00:00.123 UTC. -/
theorem c6_witness :
    getWeekKey ⟨2027, 3, 15, 123⟩ = "2027-W12" ∧
    1 ≤ codeWeekNumber 2027 3 15 := by
  have h := c6_week_key_formula ⟨2027, 3, 15, 123⟩ (by norm_num)
  refine ⟨?_, h.2⟩
  rw [h.1]
  decide

/-- Claim C7: each finalized percentage field equals 100 times the
corresponding category count divided by `totalPRs`, rounded to two decimal
places, and equals 0 when `totalPRs` is 0. -/
theorem c7_percentage_finalization (w : WeekCounts) :
    finalizeWeek w
      = ⟨specPercentage w.copilotAssistedPRs w.totalPRs,
          specPercentage w.copilotReviewPRs w.totalPRs,
          specPercentage w.copilotAgentPRs w.totalPRs⟩ ∧
    (w.totalPRs = 0 → finalizeWeek w = ⟨0, 0, 0⟩) := by
  have key : ∀ c t : ℕ,
      roundTwo (if 0 < t then (c : ℚ) / t * 100 else 0) = specPercentage c t := by
    intro c t
    by_cases ht : t = 0
    · simp [ht, specPercentage, roundTwo_zero]
    · have hpos : 0 < t := Nat.pos_of_ne_zero ht
      rw [if_pos hpos, specPercentage, if_neg ht]
      congr 1
      ring
  constructor
  · simp only [finalizeWeek]
    rw [key, key, key]
  · intro h0
    simp [finalizeWeek, h0, roundTwo_zero]

/-- Witness for C7 at concrete buckets: an empty week (totalPRs 0) yields
zero percentages, and a 3-PR week matches the spec formula. -/
theorem c7_witness :
    finalizeWeek ⟨0, 0, 0, 0⟩ = ⟨0, 0, 0⟩ ∧
    finalizeWeek ⟨3, 2, 1, 1⟩
      = ⟨specPercentage 2 3, specPercentage 1 3, specPercentage 1 3⟩ :=
  ⟨(c7_percentage_finalization ⟨0, 0, 0, 0⟩).2 rfl,
    (c7_percentage_finalization ⟨3, 2, 1, 1⟩).1⟩

/-- Claim C8: `calculateActionMinutes` maps each job having both a start
and a completion timestamp to the ceiling of its wall-clock duration in
whole minutes and sums over all jobs; a 2.5-minute job contributes 3, jobs
of 3 and 5 minutes sum to 8, and the empty list yields 0. -/
theorem c8_action_minutes (jobs : List WorkflowJob) :
    calculateActionMinutes jobs = (jobs.map jobMinutes).sum ∧
    calculateActionMinutes ([] : List WorkflowJob) = 0 ∧
    calculateActionMinutes [⟨some 0, some 150000⟩] = 3 ∧
    calculateActionMinutes [⟨some 0, some 180000⟩, ⟨some 60000, some 360000⟩]
      = 8 := by
  have hgen : ∀ js : List WorkflowJob,
      calculateActionMinutes js = (js.map jobMinutes).sum := by
    intro js
    rw [calculateActionMinutes, jobMinutes_fold]
    ring
  have heval : ∀ s e target : Int,
      (target : ℚ) * 60000 - 60000 < ((e - s : Int) : ℚ) →
      ((e - s : Int) : ℚ) ≤ target * 60000 →
      jobMinutes ⟨some s, some e⟩ = target := by
    intro s e target h1 h2
    rw [jobMinutes]
    show ⌈((e - s : Int) : ℚ) / (1000 * 60)⌉ = target
    rw [show ((1000 : ℚ) * 60) = ((60000 : ℤ) : ℚ) from by norm_num]
    exact ceil_q_div (e - s) 60000 target (by norm_num) h1 h2
  have c25 : jobMinutes ⟨some 0, some 150000⟩ = 3 :=
    heval 0 150000 3 (by norm_num) (by norm_num)
  have c3m : jobMinutes ⟨some 0, some 180000⟩ = 3 :=
    heval 0 180000 3 (by norm_num) (by norm_num)
  have c5m : jobMinutes ⟨some 60000, some 360000⟩ = 5 :=
    heval 60000 360000 5 (by norm_num) (by norm_num)
  refine ⟨hgen jobs, by rw [hgen]; rfl, ?_, ?_⟩
  · rw [hgen]
    simp [c25]
  · rw [hgen]
    simp [c3m, c5m]

/-- Claim C9: `analyzeCommitCounts` counts every commit exactly once:
`userCommits + copilotCommits = totalCommits = length of the input`, with
`copilotCommits` counting exactly the Copilot-classified commits and
`userCommits` all remaining commits — independent of whether their author
matches the analyzed owner. -/
theorem c9_commit_count_invariant (owner : String) (commits : List CommitRec) :
    (analyzeCommitCounts owner commits).userCommits
        + (analyzeCommitCounts owner commits).copilotCommits
      = (analyzeCommitCounts owner commits).totalCommits ∧
    (analyzeCommitCounts owner commits).totalCommits = commits.length ∧
    (analyzeCommitCounts owner commits).copilotCommits
      = commits.countP (fun c => isCopilotCommit c) ∧
    (analyzeCommitCounts owner commits).userCommits
      = commits.countP (fun c => !isCopilotCommit c) := by
  obtain ⟨h1, h2, h3⟩ :=
    commitCountStep_fold owner commits ⟨commits.length, 0, 0⟩
  have hlen : commits.length = commits.countP (fun c => isCopilotCommit c)
      + commits.countP (fun c => !isCopilotCommit c) := by
    simpa using List.length_eq_countP_add_countP
      (fun c => isCopilotCommit c) commits
  rw [analyzeCommitCounts]
  refine ⟨?_, ?_, ?_, ?_⟩ <;> simp only [h1, h2, h3] <;> omega

/-- Claim C10: a 404 on any page of `getRepositoryPullRequests` — not only
the first — returns the empty list, discarding the pull requests
accumulated from earlier (full, unfiltered) pages; an error with any other
status instead raises an error for that repository. -/
theorem c10_pagination_404 (since : Int) (pre rest : List PageResp)
    (hfull : ∀ p ∈ pre, ∃ items, p = .page items ∧ items.length = 100 ∧
      ∀ pr ∈ items, pr.createdAtMs ≥ since) :
    getRepositoryPullRequests since (pre ++ .err (some 404) :: rest) []
      = .ok [] ∧
    ∀ st : Option Nat, st ≠ some 404 →
      getRepositoryPullRequests since (pre ++ .err st :: rest) []
        = .error "Failed to fetch pull requests" := by
  constructor
  · obtain ⟨acc2, heq⟩ :=
      getRepositoryPullRequests_advance since pre (.err (some 404) :: rest) []
        hfull
    rw [heq, getRepositoryPullRequests_err]
    simp
  · intro st hst
    obtain ⟨acc2, heq⟩ :=
      getRepositoryPullRequests_advance since pre (.err st :: rest) [] hfull
    rw [heq, getRepositoryPullRequests_err]
    have : (st == some 404) = false := by
      rcases st with _ | s
      · rfl
      · simpa using fun h => hst (by simp [h])
    rw [this]
    rfl

/-- Witness for C10: one full page of 100 in-window PRs followed by a 404
(result: empty list, page-1 items discarded) or by a 500 (result: error). -/
theorem c10_witness :
    getRepositoryPullRequests 0
      [.page (List.replicate 100 ⟨7⟩), .err (some 404)] [] = .ok [] ∧
    getRepositoryPullRequests 0
      [.page (List.replicate 100 ⟨7⟩), .err (some 500)] []
      = .error "Failed to fetch pull requests" := by
  have hfull : ∀ p ∈ [PageResp.page (List.replicate 100 ⟨7⟩)],
      ∃ items, p = .page items ∧ items.length = 100 ∧
        ∀ pr ∈ items, pr.createdAtMs ≥ (0 : Int) := by
    intro p hp
    simp only [List.mem_singleton] at hp
    subst hp
    refine ⟨List.replicate 100 ⟨7⟩, rfl, by simp, ?_⟩
    intro pr hpr
    rw [List.eq_of_mem_replicate hpr]
    norm_num
  have h := c10_pagination_404 0 [.page (List.replicate 100 ⟨7⟩)] [] hfull
  exact ⟨h.1, h.2 (some 500) (by decide)⟩

end PRAnalyzer
